import Mathlib

/-!
# ScrapeWizard — verification of the core specification

Shallow embedding of the ScrapeWizard core in Lean 4, translated from the
Python source:

* `scrapewizard/healing/repair_loop.py` and `healing/classifier.py`
  (the bounded self-healing loop),
* `scrapewizard/recon/scanner.py` (score synthesis of the behavioral scanner),
* `scrapewizard/core/orchestrator.py` (the workflow engine: run loop,
  INIT handler, USER_CONFIG handler),
* `scrapewizard/llm/client.py` (`LLMClient.parse_json`),
* `scrapewizard_runtime/base.py` (the generated-scraper runtime:
  collection, dedup, pagination driver).

Stateful Python code is embedded as explicit state passing; callbacks and
UI / browser / LLM effects are parameters (oracles indexed by invocation
count); code that can raise returns `Except` / is tracked by an explicit
outcome type.  Machine integers are `Nat`/`Int` (all scores in the source
are Python ints built from non-negative additions); the single float
comparison (`mutation_rate_per_sec > 0.5`) is embedded over `ℚ`, which is
exact for the values the source produces (`count / 4`).
-/

/-! ## Repair loop (`scrapewizard/healing`) -/

namespace Healing

/-- Embedding of `ErrorClassifier.classify` (`classifier.py`): case-insensitive
substring matching on the test output. -/
def classify (errorMsg : String) : String :=
  let m := errorMsg.toLower
  if (m.splitOn "timeouterror").length > 1 then "timeout_error"
  else if (m.splitOn "syntaxerror").length > 1 ∨ (m.splitOn "indentationerror").length > 1 then
    "syntax_error"
  else if (m.splitOn "waiting for selector").length > 1 ∨ (m.splitOn "element not found").length > 1 then
    "selector_error"
  else if (m.splitOn "network").length > 1 ∨ (m.splitOn "connection refused").length > 1 then
    "network_error"
  else "general_error"

/-- Embedding of `ErrorClassifier.is_recoverable`. -/
def isRecoverable (errorType : String) : Bool :=
  errorType ∈ ["syntax_error", "selector_error", "timeout_error"]

/-- Default attempt budget set in `RepairLoop.__init__` (`self.max_attempts = 2`). -/
def defaultMaxAttempts : Nat := 2

/-- Loop body of `RepairLoop.run`.  `test i` is the result of the `i`-th
invocation of the `test_runner` callback (`(success, output)`); `repairOk i`
is `true` when the `i`-th call to `RepairAgent.repair` returns without
raising.  `attempts` is the source's loop counter; `fuel` is
`maxAttempts + 1 - attempts`, enough for every iteration of the source's
`while attempts <= self.max_attempts` loop.  Returns
`(result, tests performed, repairs performed)`.  The classification of the
output (`ErrorClassifier.classify`) is log-only in the source and does not
affect control flow. -/
def runAux (test : Nat → Bool × String) (repairOk : Nat → Bool) (maxAttempts : Nat) :
    Nat → Nat → Bool × Nat × Nat
  | _, 0 => (false, 0, 0)
  | attempts, fuel + 1 =>
    if (test attempts).1 then (true, 1, 0)
    else if attempts = maxAttempts then (false, 1, 0)
    else if repairOk attempts = false then (false, 1, 1)
    else
      let r := runAux test repairOk maxAttempts (attempts + 1) fuel
      (r.1, r.2.1 + 1, r.2.2 + 1)

/-- Embedding of `RepairLoop.run` (`repair_loop.py`): starts at `attempts = 0`. -/
def repairLoopRun (test : Nat → Bool × String) (repairOk : Nat → Bool)
    (maxAttempts : Nat) : Bool × Nat × Nat :=
  runAux test repairOk maxAttempts 0 (maxAttempts + 1)

theorem runAux_tests_le (test : Nat → Bool × String) (repairOk : Nat → Bool)
    (m : Nat) : ∀ fuel attempts, (runAux test repairOk m attempts fuel).2.1 ≤ fuel := by
  intro fuel
  induction fuel with
  | zero => intro attempts; simp [runAux]
  | succ n ih =>
    intro attempts
    simp only [runAux]
    split
    · simp
    · split
      · simp
      · split
        · simp
        · have := ih (attempts + 1)
          simp only []
          omega

theorem runAux_result_iff (test : Nat → Bool × String) (repairOk : Nat → Bool)
    (m : Nat) : ∀ fuel attempts,
    ((runAux test repairOk m attempts fuel).1 = true ↔
      ∃ i, i < (runAux test repairOk m attempts fuel).2.1 ∧ (test (attempts + i)).1 = true) := by
  intro fuel
  induction fuel with
  | zero => intro attempts; simp [runAux]
  | succ n ih =>
    intro attempts
    simp only [runAux]
    split
    · rename_i hsucc
      constructor
      · intro _
        exact ⟨0, Nat.zero_lt_one, by simpa using hsucc⟩
      · intro _; rfl
    · rename_i hfail
      split
      · constructor
        · intro h; exact Bool.noConfusion h
        · rintro ⟨i, hi, hti⟩
          have hi1 : i < 1 := hi
          have : i = 0 := by omega
          subst this
          simp only [Nat.add_zero] at hti
          exact absurd hti (by simpa using hfail)
      · split
        · constructor
          · intro h; exact Bool.noConfusion h
          · rintro ⟨i, hi, hti⟩
            have hi1 : i < 1 := hi
            have : i = 0 := by omega
            subst this
            simp only [Nat.add_zero] at hti
            exact absurd hti (by simpa using hfail)
        · have hrec := ih (attempts + 1)
          constructor
          · intro h
            have h' : (runAux test repairOk m (attempts + 1) n).1 = true := h
            obtain ⟨i, hi, hti⟩ := hrec.mp h'
            refine ⟨i + 1, ?_, ?_⟩
            · show i + 1 < (runAux test repairOk m (attempts + 1) n).2.1 + 1
              omega
            · have : attempts + (i + 1) = attempts + 1 + i := by omega
              rw [this]; exact hti
          · rintro ⟨i, hi, hti⟩
            have hi' : i < (runAux test repairOk m (attempts + 1) n).2.1 + 1 := hi
            match i with
            | 0 =>
              simp only [Nat.add_zero] at hti
              exact absurd hti (by simpa using hfail)
            | j + 1 =>
              show (runAux test repairOk m (attempts + 1) n).1 = true
              apply hrec.mpr
              refine ⟨j, by omega, ?_⟩
              have : attempts + 1 + j = attempts + (j + 1) := by omega
              rw [this]; exact hti

/-- Claim C1. `RepairLoop.run` invokes `test_runner` at most `max_attempts + 1`
times (with the default budget of 2, at most 3 times); it returns `true` iff
some performed invocation of `test_runner` returned success; and with an
attempt budget of 0 it invokes `test_runner` exactly once and never invokes
the Repair agent. -/
theorem repairLoop_run_spec (test : Nat → Bool × String) (repairOk : Nat → Bool)
    (m : Nat) :
    (repairLoopRun test repairOk m).2.1 ≤ m + 1 ∧
    ((repairLoopRun test repairOk m).1 = true ↔
      ∃ i, i < (repairLoopRun test repairOk m).2.1 ∧ (test i).1 = true) ∧
    (repairLoopRun test repairOk defaultMaxAttempts).2.1 ≤ 3 ∧
    ((repairLoopRun test repairOk 0).2.1 = 1 ∧ (repairLoopRun test repairOk 0).2.2 = 0) := by
  refine ⟨runAux_tests_le test repairOk m (m + 1) 0, ?_, ?_, ?_⟩
  · have h := runAux_result_iff test repairOk m (m + 1) 0
    simpa [repairLoopRun] using h
  · exact runAux_tests_le test repairOk defaultMaxAttempts 3 0
  · cases h : (test 0).1 <;> simp [repairLoopRun, runAux, h]

end Healing

/-! ## Behavioral scanner score synthesis (`scrapewizard/recon/scanner.py`) -/

namespace Scanner

/-- The behavioral signals consumed by `_calculate_complexity_score`
(the `behavioral_data` dict built in `Scanner.scan`). -/
structure BehavioralData where
  mutationRatePerSec : ℚ
  scrollIncreases : Bool
  captchaDetected : Bool
  cloudflareDetected : Bool

/-- The tech signals consumed by `_calculate_complexity_score` (only
`is_spa` is read). -/
structure TechData where
  isSpa : Bool

/-- Output of `_detect_bot_defense_signals`. -/
structure BotDefenseData where
  foundCookies : List String
  foundScripts : List String
  honeypots : Nat

/-- The `network_activity` URLs read by `_calculate_hostility_score`. -/
structure NetworkData where
  apiEndpointUrls : List String
  jsonResponseUrls : List String

/-- The fields of `_detect_signin_requirement`'s output read in `Scanner.scan`
(step "3. Sign-In Requirement Check"). -/
structure SigninData where
  detected : Bool
  likelihoodScore : Nat
  reasons : List String

/-- Python `needle in hay` on strings (substring test), over char lists. -/
def containsSubAux (needle : List Char) : List Char → Bool
  | [] => needle.isEmpty
  | c :: rest => needle.isPrefixOf (c :: rest) || containsSubAux needle rest

/-- Python `needle in hay` on strings. -/
def strContainsSub (hay needle : String) : Bool :=
  containsSubAux needle.toList hay.toList

/-- Embedding of `Scanner._calculate_complexity_score`: returns
`(score, recommendation, reasons)`. -/
def calcComplexityScore (b : BehavioralData) (t : TechData) : Nat × String × List String :=
  let score : Nat := 0
  let reasons : List String := []
  let score := if b.captchaDetected then score + 50 else score
  let reasons := if b.captchaDetected then reasons ++ ["CAPTCHA detected"] else reasons
  let score := if b.cloudflareDetected then score + 40 else score
  let reasons := if b.cloudflareDetected then reasons ++ ["Cloudflare detected"] else reasons
  let score := if t.isSpa then score + 20 else score
  let reasons := if t.isSpa then reasons ++ ["SPA Framework detected"] else reasons
  let score := if b.mutationRatePerSec > (1 : ℚ) / 2 then score + 15 else score
  let reasons := if b.mutationRatePerSec > (1 : ℚ) / 2 then reasons ++ ["High DOM mutation rate"] else reasons
  let score := if b.scrollIncreases then score + 15 else score
  let reasons := if b.scrollIncreases then reasons ++ ["Infinite scroll / Lazy loading"] else reasons
  let recomm := if score ≥ 40 then "guided" else "automatic"
  (score, recomm, reasons)

/-- The `bad_paths` list of `_calculate_hostility_score`. -/
def badPaths : List String :=
  ["/challenge", "/verify", "/fp", "/setup", "/perimeterx", "/akamai", "/datadome"]

/-- Embedding of `Scanner._calculate_hostility_score`: returns
`(score, reasons)`. -/
def calcHostilityScore (defense : BotDefenseData) (network : NetworkData) :
    Nat × List String :=
  let score : Nat := 0
  let reasons : List String := []
  let score := if defense.foundCookies ≠ [] then score + 50 else score
  let reasons := if defense.foundCookies ≠ [] then
      reasons ++ ["Bot Cookies: " ++ String.intercalate ", " defense.foundCookies]
    else reasons
  let score := if defense.foundScripts ≠ [] then score + 30 else score
  let reasons := if defense.foundScripts ≠ [] then
      reasons ++ ["Bot Defense Scripts detected"] else reasons
  let score := if defense.honeypots > 0 then score + 20 else score
  let reasons := if defense.honeypots > 0 then
      reasons ++ ["Honeypots detected (" ++ toString defense.honeypots ++ ")"] else reasons
  let foundChallenges := (network.apiEndpointUrls ++ network.jsonResponseUrls).filter
      (fun u => badPaths.any (fun p => strContainsSub u.toLower p))
  let score := if foundChallenges ≠ [] then score + 30 else score
  let reasons := if foundChallenges ≠ [] then
      reasons ++ ["Challenge/Verification requests detected"] else reasons
  (score, reasons)

/-- The "4. Override Logic" block of `Scanner.scan` (lines 157–168): final
complexity, access recommendation and reasons from the base complexity triple
and the (sign-in-folded) hostility pair.  The source's `list(set(...))` in the
hostile branch dedups with unspecified order; embedded as first-occurrence
dedup. -/
def applyOverride (complexity0 : Nat) (accessRec0 : String) (reasons0 : List String)
    (hostility : Nat) (hostilityReasons : List String) : Nat × String × List String :=
  if hostility ≥ 40 then
    (max complexity0 hostility, "guided",
      (["Hostile Bot Defense Detected"] ++ hostilityReasons ++ reasons0).eraseDups)
  else if hostility > 0 then
    (complexity0 + hostility, accessRec0, reasons0 ++ hostilityReasons)
  else
    (complexity0, accessRec0, reasons0)

/-- The synthesized tail fields of the scan profile. -/
structure SynthesisResult where
  complexityScore : Nat
  hostilityScore : Nat
  accessRecommendation : String
  complexityReasons : List String
  deriving Repr, DecidableEq

/-- Steps 1–4 of the score synthesis in `Scanner.scan` (lines 135–175): base
complexity, hostility, sign-in fold (`hostility = max(hostility, signin_score)`
when `signin_detected`), then the override logic. -/
def scanSynthesize (b : BehavioralData) (t : TechData) (defense : BotDefenseData)
    (network : NetworkData) (signin : SigninData) : SynthesisResult :=
  let c := calcComplexityScore b t
  let h0 := calcHostilityScore defense network
  let h := if signin.detected then
      (max h0.1 signin.likelihoodScore, h0.2 ++ signin.reasons)
    else h0
  let fin := applyOverride c.1 c.2.1 c.2.2 h.1 h.2
  { complexityScore := fin.1
    hostilityScore := h.1
    accessRecommendation := fin.2.1
    complexityReasons := fin.2.2 }

theorem applyOverride_forced (c0 : Nat) (r0 : String) (rs0 : List String)
    (h : Nat) (hr : List String) (h40 : h ≥ 40) :
    (applyOverride c0 r0 rs0 h hr).2.1 = "guided" ∧
      (applyOverride c0 r0 rs0 h hr).1 = max c0 h := by
  unfold applyOverride
  rw [if_pos h40]
  exact ⟨rfl, rfl⟩

theorem applyOverride_not_forced (c0 : Nat) (r0 : String) (rs0 : List String)
    (h : Nat) (hr : List String) (hlt : h < 40) :
    (applyOverride c0 r0 rs0 h hr).2.1 = r0 ∧
      (applyOverride c0 r0 rs0 h hr).1 = c0 + h := by
  unfold applyOverride
  rw [if_neg (by omega)]
  by_cases hp : h > 0
  · rw [if_pos hp]; exact ⟨rfl, rfl⟩
  · rw [if_neg hp]; exact ⟨rfl, by omega⟩

theorem applyOverride_ge (c0 : Nat) (r0 : String) (rs0 : List String)
    (h : Nat) (hr : List String) : h ≤ (applyOverride c0 r0 rs0 h hr).1 := by
  by_cases h40 : h ≥ 40
  · rw [(applyOverride_forced c0 r0 rs0 h hr h40).2]
    exact le_max_right _ _
  · rw [(applyOverride_not_forced c0 r0 rs0 h hr (by omega)).2]
    omega

/-- Claim C2. If the synthesized hostility score is at least 40 the access
recommendation is forced to `"guided"` and the complexity score becomes the
max of the pre-override complexity and the hostility score; below 40 the
recommendation stays the pre-override one and the hostility is added to the
complexity.  The threshold is exactly `≥ 40`: hostility 40 forces guided,
hostility 39 does not. -/
theorem scanner_hostility_threshold (b : BehavioralData) (t : TechData)
    (d : BotDefenseData) (n : NetworkData) (si : SigninData) :
    (40 ≤ (scanSynthesize b t d n si).hostilityScore →
      (scanSynthesize b t d n si).accessRecommendation = "guided" ∧
      (scanSynthesize b t d n si).complexityScore =
        max (calcComplexityScore b t).1 (scanSynthesize b t d n si).hostilityScore) ∧
    ((scanSynthesize b t d n si).hostilityScore < 40 →
      (scanSynthesize b t d n si).accessRecommendation = (calcComplexityScore b t).2.1 ∧
      (scanSynthesize b t d n si).complexityScore =
        (calcComplexityScore b t).1 + (scanSynthesize b t d n si).hostilityScore) ∧
    (applyOverride 10 "automatic" [] 40 []).2.1 = "guided" ∧
    (applyOverride 10 "automatic" [] 39 []).2.1 = "automatic" := by
  refine ⟨?_, ?_, by decide, by decide⟩
  · intro h40
    simp only [scanSynthesize] at h40 ⊢
    exact applyOverride_forced _ _ _ _ _ h40
  · intro hlt
    simp only [scanSynthesize] at hlt ⊢
    exact applyOverride_not_forced _ _ _ _ _ hlt

/-- Closed witness for C2: a scan with a bot-defense cookie (`cf_clearance`)
reaches hostility 50 ≥ 40 and is forced to guided with
`complexity = max(complexity, hostility)`; a scan with only a honeypot
(hostility 20 < 40) keeps the base recommendation and adds hostility. -/
theorem scanner_hostility_threshold_witness :
    (40 ≤ (scanSynthesize ⟨0, false, false, false⟩ ⟨false⟩ ⟨["cf_clearance"], [], 0⟩
        ⟨[], []⟩ ⟨false, 0, []⟩).hostilityScore ∧
      (scanSynthesize ⟨0, false, false, false⟩ ⟨false⟩ ⟨["cf_clearance"], [], 0⟩
        ⟨[], []⟩ ⟨false, 0, []⟩).accessRecommendation = "guided") ∧
    ((scanSynthesize ⟨0, false, false, false⟩ ⟨false⟩ ⟨[], [], 1⟩
        ⟨[], []⟩ ⟨false, 0, []⟩).hostilityScore < 40 ∧
      (scanSynthesize ⟨0, false, false, false⟩ ⟨false⟩ ⟨[], [], 1⟩
        ⟨[], []⟩ ⟨false, 0, []⟩).accessRecommendation = "automatic") := by
  refine ⟨⟨by decide, ?_⟩, ⟨by decide, ?_⟩⟩
  · exact ((scanner_hostility_threshold ⟨0, false, false, false⟩ ⟨false⟩
      ⟨["cf_clearance"], [], 0⟩ ⟨[], []⟩ ⟨false, 0, []⟩).1 (by decide)).1
  · exact (((scanner_hostility_threshold ⟨0, false, false, false⟩ ⟨false⟩
      ⟨[], [], 1⟩ ⟨[], []⟩ ⟨false, 0, []⟩).2.1 (by decide)).1).trans
      (by norm_num [calcComplexityScore])

/-- Claim C3. After synthesis, `complexity_score ≥ hostility_score` always holds:
in the hostile branch complexity is `max(complexity, hostility)`, otherwise
hostility is added to the non-negative base complexity. -/
theorem scanner_complexity_ge_hostility (b : BehavioralData) (t : TechData)
    (d : BotDefenseData) (n : NetworkData) (si : SigninData) :
    (scanSynthesize b t d n si).hostilityScore ≤
      (scanSynthesize b t d n si).complexityScore := by
  simp only [scanSynthesize]
  exact applyOverride_ge _ _ _ _ _

end Scanner

/-! ## Workflow engine (`scrapewizard/core/orchestrator.py`) -/

namespace Engine

/-- The session states of `scrapewizard/core/state.py` (`State`). -/
inductive SessState where
  | INIT | LOGIN | GUIDED_ACCESS | RECON | INTERACTIVE_SOLVE | LLM_ANALYSIS
  | USER_CONFIG | CODEGEN | TEST | REPAIR | APPROVED | FINAL_RUN | DONE | FAILED
  deriving DecidableEq, Repr

/-- The loop condition of `_run_internal`: the loop runs while the state is
neither `DONE` nor `FAILED`. -/
def SessState.isTerminal (s : SessState) : Bool :=
  s = SessState.DONE || s = SessState.FAILED

/-- States handled by the `if`/`elif` dispatch of `_run_internal`; any other
non-terminal state hits the `else` branch (log, transition to `FAILED`,
`break`). -/
def dispatched (s : SessState) : Bool :=
  match s with
  | .INIT | .LOGIN | .GUIDED_ACCESS | .RECON | .LLM_ANALYSIS | .USER_CONFIG
  | .CODEGEN | .TEST | .REPAIR | .INTERACTIVE_SOLVE | .APPROVED => true
  | _ => false

/-- How one handler invocation terminates, as observed by the `try` block of
`_run_internal`: normal return with the session now in state `next`
(handlers move the state via `_transition_to`), a `KeyboardInterrupt`, or any
other exception. -/
inductive HandlerOutcome where
  | ok (next : SessState)
  | interrupt
  | raises
  deriving DecidableEq, Repr

/-- Observable effects of one engine run: final in-memory session state, the
successive session states passed to `ProjectManager.save_state`, the number
of `wide_event.json` writes, whether `run` re-raises to its caller, and
whether a `KeyboardInterrupt` was caught. -/
structure RunResult where
  finalState : SessState
  savedStates : List SessState
  wideEvents : Nat
  reraised : Bool
  interrupted : Bool
  deriving DecidableEq, Repr

/-- The `while` loop of `Orchestrator._run_internal`.  `handlers step s` is
the outcome of executing the handler for state `s` at loop iteration `step`.
Per iteration: if the state is terminal the loop exits; if the state is not
dispatched the engine transitions to `FAILED` and breaks (no save); on a
normal handler return the session (now in `next`) is persisted and the loop
continues; on `KeyboardInterrupt` the engine transitions to `FAILED` and
breaks without persisting; on any other exception it transitions to `FAILED`,
persists, and re-raises.  `fuel` bounds the number of iterations modelled. -/
def loopAux (handlers : Nat → SessState → HandlerOutcome) :
    Nat → Nat → SessState → RunResult
  | 0, _, s =>
    { finalState := s, savedStates := [], wideEvents := 0
      reraised := false, interrupted := false }
  | fuel + 1, step, s =>
    if s.isTerminal then
      { finalState := s, savedStates := [], wideEvents := 0
        reraised := false, interrupted := false }
    else if dispatched s then
      match handlers step s with
      | .ok next =>
        let r := loopAux handlers fuel (step + 1) next
        { r with savedStates := next :: r.savedStates }
      | .interrupt =>
        { finalState := .FAILED, savedStates := [], wideEvents := 0
          reraised := false, interrupted := true }
      | .raises =>
        { finalState := .FAILED, savedStates := [.FAILED], wideEvents := 0
          reraised := true, interrupted := false }
    else
      { finalState := .FAILED, savedStates := [], wideEvents := 0
        reraised := false, interrupted := false }

/-- Embedding of `Orchestrator.run`: executes `_run_internal` and, in its
`finally` block, always emits exactly one Wide Event (`_emit_wide_event`),
whether the loop ended normally, was interrupted, or re-raised. -/
def engineRun (handlers : Nat → SessState → HandlerOutcome) (fuel : Nat)
    (s0 : SessState) : RunResult :=
  let r := loopAux handlers fuel 0 s0
  { r with wideEvents := r.wideEvents + 1 }

theorem loopAux_terminal (handlers : Nat → SessState → HandlerOutcome)
    (fuel step : Nat) (s : SessState) (hs : s.isTerminal = true) :
    loopAux handlers fuel step s =
      { finalState := s, savedStates := [], wideEvents := 0
        reraised := false, interrupted := false } := by
  cases fuel with
  | zero => rfl
  | succ n => simp [loopAux, hs]

theorem loopAux_wideEvents (handlers : Nat → SessState → HandlerOutcome) :
    ∀ fuel step s, (loopAux handlers fuel step s).wideEvents = 0 := by
  intro fuel
  induction fuel with
  | zero => intro step s; rfl
  | succ n ih =>
    intro step s
    by_cases hterm : s.isTerminal = true
    · rw [loopAux_terminal handlers _ step s hterm]
    · by_cases hdisp : dispatched s = true
      · cases hout : handlers step s with
        | ok next =>
          simp only [loopAux, if_neg hterm, if_pos hdisp, hout]
          exact ih (step + 1) next
        | interrupt => simp only [loopAux, if_neg hterm, if_pos hdisp, hout]
        | raises => simp only [loopAux, if_neg hterm, if_pos hdisp, hout]
      · simp only [loopAux, if_neg hterm, if_neg hdisp]

theorem loopAux_interrupted (handlers : Nat → SessState → HandlerOutcome) :
    ∀ fuel step s, (loopAux handlers fuel step s).interrupted = true →
      (loopAux handlers fuel step s).finalState = .FAILED ∧
      (loopAux handlers fuel step s).reraised = false ∧
      SessState.FAILED ∉ (loopAux handlers fuel step s).savedStates := by
  intro fuel
  induction fuel with
  | zero => intro step s h; exact Bool.noConfusion h
  | succ n ih =>
    intro step s h
    by_cases hterm : s.isTerminal = true
    · rw [loopAux_terminal handlers _ step s hterm] at h
      exact Bool.noConfusion h
    · by_cases hdisp : dispatched s = true
      · cases hout : handlers step s with
        | ok next =>
          simp only [loopAux, if_neg hterm, if_pos hdisp, hout] at h ⊢
          have h' : (loopAux handlers n (step + 1) next).interrupted = true := h
          obtain ⟨h1, h2, h3⟩ := ih (step + 1) next h'
          have hnext : next ≠ SessState.FAILED := by
            intro he
            rw [he, loopAux_terminal handlers n (step + 1) _ (by decide)] at h'
            exact Bool.noConfusion h'
          refine ⟨h1, h2, ?_⟩
          show SessState.FAILED ∉ next :: (loopAux handlers n (step + 1) next).savedStates
          intro hmem
          rcases List.mem_cons.mp hmem with heq | hmem'
          · exact hnext heq.symm
          · exact h3 hmem'
        | interrupt =>
          simp only [loopAux, if_neg hterm, if_pos hdisp, hout] at h ⊢
          simp
        | raises =>
          simp only [loopAux, if_neg hterm, if_pos hdisp, hout] at h
          exact Bool.noConfusion h
      · simp only [loopAux, if_neg hterm, if_neg hdisp] at h
        exact Bool.noConfusion h

/-- Claim C5 (amended). A run in which a handler is interrupted by user
cancellation ends with the in-memory session state `FAILED`, emits exactly
one Wide Event, and returns to its caller without re-raising — but it does
*not* persist the `FAILED` session: no `save_state` call with the `FAILED`
state ever happens (the `KeyboardInterrupt` branch of `_run_internal` breaks
before `ProjectManager.save_state`). -/
theorem engine_interrupt_amended (handlers : Nat → SessState → HandlerOutcome)
    (fuel : Nat) (s0 : SessState)
    (h : (engineRun handlers fuel s0).interrupted = true) :
    (engineRun handlers fuel s0).finalState = .FAILED ∧
    (engineRun handlers fuel s0).reraised = false ∧
    (engineRun handlers fuel s0).wideEvents = 1 ∧
    SessState.FAILED ∉ (engineRun handlers fuel s0).savedStates := by
  have h' : (loopAux handlers fuel 0 s0).interrupted = true := h
  obtain ⟨h1, h2, h3⟩ := loopAux_interrupted handlers fuel 0 s0 h'
  refine ⟨h1, h2, ?_, h3⟩
  show (loopAux handlers fuel 0 s0).wideEvents + 1 = 1
  rw [loopAux_wideEvents handlers fuel 0 s0]

/-- Witness for C5 (amended): a concrete run whose first handler is
interrupted. -/
theorem engine_interrupt_amended_witness :
    (engineRun (fun _ _ => HandlerOutcome.interrupt) 1 SessState.INIT).interrupted = true ∧
    (engineRun (fun _ _ => HandlerOutcome.interrupt) 1 SessState.INIT).finalState = .FAILED ∧
    (engineRun (fun _ _ => HandlerOutcome.interrupt) 1 SessState.INIT).reraised = false ∧
    (engineRun (fun _ _ => HandlerOutcome.interrupt) 1 SessState.INIT).wideEvents = 1 ∧
    SessState.FAILED ∉ (engineRun (fun _ _ => HandlerOutcome.interrupt) 1 SessState.INIT).savedStates := by
  refine ⟨by decide, ?_⟩
  have h := engine_interrupt_amended (fun _ _ => HandlerOutcome.interrupt) 1
    SessState.INIT (by decide)
  exact ⟨h.1, h.2.1, h.2.2.1, h.2.2.2⟩

/-- Claim C5 (counterexample to the claim as stated). In a run interrupted at
the first handler, *no* session state at all is persisted — in particular the
`FAILED` session is not written to `session.json`, contradicting the claim
that the engine "persists the session" on cancellation. -/
theorem engine_interrupt_cex :
    (engineRun (fun _ _ => HandlerOutcome.interrupt) 2 SessState.RECON).interrupted = true ∧
    (engineRun (fun _ _ => HandlerOutcome.interrupt) 2 SessState.RECON).finalState = .FAILED ∧
    (engineRun (fun _ _ => HandlerOutcome.interrupt) 2 SessState.RECON).savedStates = [] := by
  decide

/-- Claim C6 (amended). Running the engine on a project whose persisted state is
already `DONE` or `FAILED` executes no handler and never calls `save_state`
(the Session is not mutated), but it still emits exactly one Wide Event: the
emission happens unconditionally in `Orchestrator.run`'s `finally` block. -/
theorem engine_terminal_noop_amended (handlers : Nat → SessState → HandlerOutcome)
    (fuel : Nat) (s0 : SessState) (h : s0.isTerminal = true) :
    engineRun handlers fuel s0 =
      { finalState := s0, savedStates := [], wideEvents := 1
        reraised := false, interrupted := false } := by
  unfold engineRun
  rw [loopAux_terminal handlers fuel 0 s0 h]

/-- Witness for C6 (amended): concrete run on a `DONE` project. -/
theorem engine_terminal_noop_amended_witness :
    SessState.DONE.isTerminal = true ∧
    engineRun (fun _ _ => HandlerOutcome.raises) 3 SessState.DONE =
      { finalState := .DONE, savedStates := [], wideEvents := 1
        reraised := false, interrupted := false } :=
  ⟨by decide, engine_terminal_noop_amended (fun _ _ => HandlerOutcome.raises) 3
    SessState.DONE (by decide)⟩

/-- Claim C6 (counterexample to the claim as stated). A run on a project already
in state `DONE` *does* emit a (new) Wide Event — `wide_event.json` is written
once by the `finally` block — contradicting "neither mutates the Session nor
emits a new Wide Event". -/
theorem engine_terminal_run_emits_event_cex :
    (engineRun (fun _ _ => HandlerOutcome.ok SessState.DONE) 1 SessState.DONE).wideEvents ≠ 0 ∧
    (engineRun (fun _ _ => HandlerOutcome.ok SessState.DONE) 1 SessState.DONE).savedStates = [] := by
  decide

end Engine

namespace Engine

/-- The scan-profile fields read by `Orchestrator._handle_init` from the probe
result (a dict; `profile.get(key, default)` is modelled by `Option.getD`). -/
structure ProbeProfile where
  accessRecommendation : Option String
  complexityScore : Option Nat
  complexityReasons : Option (List String)
  deriving DecidableEq, Repr

/-- The synthetic fallback profile built in `_handle_init` when the stealth
probe raises even after its retries
(`{"access_recommendation": "guided", "complexity_score": 100,
"complexity_reasons": ["Probe failed"]}`). -/
def syntheticProfile : ProbeProfile :=
  { accessRecommendation := some "guided"
    complexityScore := some 100
    complexityReasons := some ["Probe failed"] }

/-- Observable effects of one `_handle_init` execution: the state transition,
any write of `scan_profile.json`, the `interaction.json` write
(`access_mode`, `complexity_score`; `steps` is always `[]`), and whether the
operator was prompted (`UI.ask_access_mode`). -/
structure InitResult where
  nextState : SessState
  scanProfileWritten : Option ProbeProfile
  interactionWritten : Option (String × Nat)
  promptedOperator : Bool
  deriving DecidableEq, Repr

/-- Embedding of `Orchestrator._handle_init`.  `probe` is the outcome of the
retry-wrapped `do_prescan()` (`.error ()` when it raises after all retries);
`askAccessMode` is the operator's answer to `UI.ask_access_mode` given the
recommendation (expert mode only).  The handler never writes
`scan_profile.json`; on probe failure it substitutes `syntheticProfile` in
memory and proceeds. -/
def handleInit (ciMode wizardMode : Bool) (probe : Except Unit ProbeProfile)
    (askAccessMode : String → String) : InitResult :=
  if ciMode then
    { nextState := .RECON, scanProfileWritten := none
      interactionWritten := none, promptedOperator := false }
  else
    let profile := match probe with
      | .ok p => p
      | .error _ => syntheticProfile
    let recc := profile.accessRecommendation.getD "automatic"
    let score := profile.complexityScore.getD 0
    let mode := if wizardMode then recc else askAccessMode recc
    { nextState := if mode = "guided" then .GUIDED_ACCESS else .RECON
      scanProfileWritten := none
      interactionWritten := some (mode, score)
      promptedOperator := !wizardMode }

/-- Claim C7 (counterexample to the claim as stated). When the probe fails, the
INIT handler does *not* persist the synthetic ScanProfile: no
`scan_profile.json` write happens in `_handle_init` (only `interaction.json`
is written). -/
theorem init_probe_fail_not_persisted_cex :
    (handleInit false true (Except.error ()) (fun r => r)).scanProfileWritten = none ∧
    (handleInit false true (Except.error ()) (fun r => r)).scanProfileWritten ≠
      some syntheticProfile := by
  decide

/-- Claim C7 (amended). When the stealth probe raises even after its retries,
the engine does not fail on that account: it substitutes the synthetic
profile (`access_recommendation = "guided"`, `complexity_score = 100`,
`complexity_reasons = ["Probe failed"]`) in memory, records the chosen access
mode and the synthetic complexity score 100 in `interaction.json`, and
proceeds — to `GUIDED_ACCESS` in wizard mode, or after an operator prompt in
expert mode; it never transitions to `FAILED`.  The synthetic profile itself
is not persisted. -/
theorem init_probe_fail_amended (wizardMode : Bool) (askAccessMode : String → String) :
    (handleInit false wizardMode (Except.error ()) askAccessMode).nextState ≠ .FAILED ∧
    (wizardMode = true →
      (handleInit false wizardMode (Except.error ()) askAccessMode).nextState = .GUIDED_ACCESS ∧
      (handleInit false wizardMode (Except.error ()) askAccessMode).promptedOperator = false) ∧
    (wizardMode = false →
      (handleInit false wizardMode (Except.error ()) askAccessMode).promptedOperator = true) ∧
    (handleInit false wizardMode (Except.error ()) askAccessMode).scanProfileWritten = none ∧
    (handleInit false wizardMode (Except.error ()) askAccessMode).interactionWritten =
      some ((if wizardMode then "guided" else askAccessMode "guided"),
        syntheticProfile.complexityScore.getD 0) := by
  cases wizardMode with
  | true =>
    refine ⟨?_, fun _ => ⟨rfl, rfl⟩, fun h => Bool.noConfusion h, rfl, rfl⟩
    intro h
    exact SessState.noConfusion (show SessState.GUIDED_ACCESS = SessState.FAILED from h)
  | false =>
    refine ⟨?_, fun h => Bool.noConfusion h, fun _ => rfl, rfl, rfl⟩
    simp only [handleInit, Bool.false_eq_true, if_false]
    by_cases hm : askAccessMode ((syntheticProfile.accessRecommendation).getD "automatic") = "guided"
    · rw [if_pos hm]; intro h; exact SessState.noConfusion h
    · rw [if_neg hm]; intro h; exact SessState.noConfusion h

/-- Witness for C7 (amended): wizard mode, probe raising, identity operator. -/
theorem init_probe_fail_amended_witness :
    (handleInit false true (Except.error ()) (fun _ => "automatic")).nextState ≠ .FAILED ∧
    (handleInit false true (Except.error ()) (fun _ => "automatic")).nextState = .GUIDED_ACCESS ∧
    (handleInit false true (Except.error ()) (fun _ => "automatic")).interactionWritten =
      some ("guided", 100) := by
  have h := init_probe_fail_amended true (fun _ => "automatic")
  exact ⟨h.1, (h.2.1 rfl).1, h.2.2.2.2⟩

/-- A field entry of the Understanding artifact (`available_fields`), as read
by `_handle_user_config` (`f.get('name')`, `f.get('suggested')`). -/
structure UField where
  name : String
  suggested : Bool
  deriving DecidableEq, Repr

/-- The Understanding-artifact fields read by `_handle_user_config`. -/
structure Understanding where
  availableFields : List UField
  recommendedBrowserMode : Option String
  reason : Option String
  deriving DecidableEq, Repr

/-- The `pagination_config` dict written into `run_config.json`. -/
structure PaginationConfig where
  mode : String
  maxPages : Nat
  deriving DecidableEq, Repr

/-- The `run_config.json` document written by `_handle_user_config`. -/
structure RunConfig where
  fields : List String
  pagination : String
  paginationConfig : PaginationConfig
  format : String
  browserMode : String
  deriving DecidableEq, Repr

/-- The "Logic to convert UI choices to Runtime config" block of
`_handle_user_config` (identical in its wizard and expert branches):
`{"mode": "all" if pagination == "all_pages" else "first_page",
"max_pages": 5 if pagination == "limit_5" else (50 if pagination ==
"all_pages" else 1)}`. -/
def mkPaginationConfig (pagination : String) : PaginationConfig :=
  { mode := if pagination = "all_pages" then "all" else "first_page"
    maxPages := if pagination = "limit_5" then 5
      else if pagination = "all_pages" then 50 else 1 }

/-- Result of `UI.ask_fields_wizard`: either the sentinel string `"retry"` or
a list of chosen field names. -/
inductive FieldsChoice where
  | retry
  | chosen (fields : List String)
  deriving DecidableEq, Repr

/-- The interactive-UI answers consumed by `_handle_user_config` (operator
oracle; arguments mirror the source's call sites). -/
structure ConfigUI where
  askFieldsWizard : List UField → List UField → Bool → FieldsChoice
  askFields : List UField → List String
  askPagination : String
  askFormat : String
  confirmBrowserMode : String → String → String

/-- How `_handle_user_config` ends: a raised exception (`.error`), a
transition back to `RECON` (wizard "retry"), or `run_config.json` written and
a transition to `CODEGEN`. -/
inductive UserConfigOutcome where
  | retryRecon
  | proceed (config : RunConfig)
  deriving DecidableEq, Repr

/-- The `config = {...}` / `safe_write_json` / `_transition_to(CODEGEN)` tail
of `_handle_user_config`, shared by all branches.  `paginationConfig` is the
local Python variable `pagination_config`: `none` models "never assigned in
this branch", in which case evaluating the `config` dict raises
`UnboundLocalError`. -/
def finishUserConfig (fields : List String) (pagination : String)
    (paginationConfig : Option PaginationConfig) (fmt browserMode : String) :
    Except String UserConfigOutcome :=
  match paginationConfig with
  | none => .error "UnboundLocalError: pagination_config"
  | some pc => .ok (.proceed
      { fields := fields, pagination := pagination, paginationConfig := pc
        format := fmt, browserMode := browserMode })

/-- Embedding of `Orchestrator._handle_user_config`. -/
def handleUserConfig (ciMode wizardMode interactiveMode loginPerformed : Bool)
    (u : Understanding) (ui : ConfigUI) : Except String UserConfigOutcome :=
  if ciMode then
    let fields0 := (u.availableFields.map (fun f => f.name)).take 5
    let fields := if fields0.isEmpty then ["item_title", "item_price"] else fields0
    finishUserConfig fields "first_page" none "json"
      (u.recommendedBrowserMode.getD "headless")
  else if wizardMode then
    let allFields := u.availableFields
    let suggested0 := allFields.filter (fun f => f.suggested)
    let suggested := if suggested0.isEmpty then allFields.take 5 else suggested0
    match ui.askFieldsWizard allFields suggested interactiveMode with
    | .retry => .ok .retryRecon
    | .chosen fields =>
      let fmt := ui.askFormat
      let pagination := ui.askPagination
      let browserMode0 := u.recommendedBrowserMode.getD "headless"
      let browserMode := if loginPerformed then "headed" else browserMode0
      finishUserConfig fields pagination (some (mkPaginationConfig pagination))
        fmt browserMode
  else
    let fields := ui.askFields u.availableFields
    let pagination := ui.askPagination
    let fmt := ui.askFormat
    let recommendedMode := u.recommendedBrowserMode.getD "headless"
    let reason := u.reason.getD "No reason provided"
    let recommendedMode := if loginPerformed then "headed" else recommendedMode
    let reason := if loginPerformed then "Login performed." else reason
    let browserMode := ui.confirmBrowserMode recommendedMode reason
    finishUserConfig fields pagination (some (mkPaginationConfig pagination))
      fmt browserMode

/-- Claim C4 (code bug). In CI mode, `_handle_user_config` always raises an
`UnboundLocalError`: the local `pagination_config` is referenced when building
the `config` dict but is only assigned in the wizard-mode and expert-mode
branches, never in the CI branch.  Hence CI runs never write
`run_config.json` and never transition to `CODEGEN` — contrary to the spec's
description of CI defaults. -/
theorem userConfig_ci_raises (wizardMode interactiveMode loginPerformed : Bool)
    (u : Understanding) (ui : ConfigUI) :
    handleUserConfig true wizardMode interactiveMode loginPerformed u ui =
      .error "UnboundLocalError: pagination_config" := by
  rfl

end Engine

/-! ## Python string helpers shared by the embeddings -/

namespace Py

/-- The characters Python's `str.strip()` removes (ASCII whitespace; this is
also `\s` of `re` in ASCII). -/
def isPyWS (c : Char) : Bool :=
  c = ' ' || c = '\t' || c = '\n' || c = '\r' || c = Char.ofNat 11 || c = Char.ofNat 12

/-- Python `str.strip()` over char lists. -/
def stripList (cs : List Char) : List Char :=
  ((cs.dropWhile isPyWS).reverse.dropWhile isPyWS).reverse

/-- Python `str.strip()`. -/
def strip (s : String) : String :=
  String.mk (stripList s.toList)

/-- The literal brace characters, named to keep string literals free of
braces. -/
def lbrace : Char := Char.ofNat 123

def rbrace : Char := Char.ofNat 125

def backtick : Char := Char.ofNat 96

end Py

/-! ## LLM JSON reply parsing (`scrapewizard/llm/client.py`) -/

namespace LlmClient

/-- JSON documents, as produced by `json.loads`.  Numbers are kept in parsed
literal form `mantissa · 10 ^ scale` (the embedding does not model IEEE float
rounding; the claims never compare numeric values across distinct literal
spellings). -/
inductive JVal where
  | jnull
  | jbool (b : Bool)
  | jnum (mantissa scale : Int)
  | jstr (s : String)
  | jarr (elems : List JVal)
  | jobj (entries : List (String × JVal))

/-- JSON insignificant whitespace (as accepted by `json.loads`). -/
def isJsonWS (c : Char) : Bool :=
  c = ' ' || c = '\t' || c = '\n' || c = '\r'

def hexVal (c : Char) : Option Nat :=
  if '0' ≤ c ∧ c ≤ '9' then some (c.toNat - 48)
  else if 'a' ≤ c ∧ c ≤ 'f' then some (c.toNat - 87)
  else if 'A' ≤ c ∧ c ≤ 'F' then some (c.toNat - 55)
  else none

def escChar (e : Char) : Option Char :=
  if e = '"' then some '"'
  else if e = '\\' then some '\\'
  else if e = '/' then some '/'
  else if e = 'b' then some (Char.ofNat 8)
  else if e = 'f' then some (Char.ofNat 12)
  else if e = 'n' then some '\n'
  else if e = 'r' then some '\r'
  else if e = 't' then some '\t'
  else none

/-- Body of a JSON string literal (after the opening quote): accumulates
decoded characters until the closing quote.  Fuel bounds the recursion; a
lone `\u` surrogate decodes to `Char.ofNat`'s fallback (never hit by the
claims). -/
def parseStringAux : Nat → List Char → List Char → Option (String × List Char)
  | 0, _, _ => none
  | fuel + 1, acc, cs =>
    match cs with
    | [] => none
    | c :: rest =>
      if c = '"' then some (String.mk acc.reverse, rest)
      else if c = '\\' then
        match rest with
        | [] => none
        | e :: rest2 =>
          if e = 'u' then
            match rest2 with
            | h1 :: h2 :: h3 :: h4 :: rest3 =>
              match hexVal h1, hexVal h2, hexVal h3, hexVal h4 with
              | some a, some b, some c2, some d =>
                parseStringAux fuel
                  (Char.ofNat (((a * 16 + b) * 16 + c2) * 16 + d) :: acc) rest3
              | _, _, _, _ => none
            | _ => none
          else
            match escChar e with
            | some ch => parseStringAux fuel (ch :: acc) rest2
            | none => none
      else parseStringAux fuel (c :: acc) rest

def parseStringBody (cs : List Char) : Option (String × List Char) :=
  parseStringAux (cs.length + 1) [] cs

def digitsToNat (ds : List Char) : Nat :=
  ds.foldl (fun a c => a * 10 + (c.toNat - 48)) 0

/-- A JSON number literal: optional sign, integer digits, optional fraction,
optional exponent; yields `(mantissa, scale)` with value
`mantissa · 10 ^ scale`. -/
def parseNumber (cs : List Char) : Option ((Int × Int) × List Char) :=
  let p := match cs with
    | c :: r => if c = '-' then (true, r) else (false, cs)
    | [] => (false, cs)
  let neg := p.1
  let cs1 := p.2
  let intDs := cs1.takeWhile Char.isDigit
  let cs2 := cs1.drop intDs.length
  if intDs.isEmpty then none
  else
    let fracStep : Option (List Char × List Char) :=
      match cs2 with
      | c :: r =>
        if c = '.' then
          let fds := r.takeWhile Char.isDigit
          if fds.isEmpty then none else some (fds, r.drop fds.length)
        else some ([], cs2)
      | [] => some ([], cs2)
    match fracStep with
    | none => none
    | some (fracDs, cs3) =>
      let expStep : Option (Bool × List Char × List Char) :=
        match cs3 with
        | c :: r =>
          if c = 'e' ∨ c = 'E' then
            match r with
            | s :: r2 =>
              if s = '+' then
                let eds := r2.takeWhile Char.isDigit
                if eds.isEmpty then none else some (false, eds, r2.drop eds.length)
              else if s = '-' then
                let eds := r2.takeWhile Char.isDigit
                if eds.isEmpty then none else some (true, eds, r2.drop eds.length)
              else
                let eds := r.takeWhile Char.isDigit
                if eds.isEmpty then none else some (false, eds, r.drop eds.length)
            | [] => none
          else some (false, [], cs3)
        | [] => some (false, [], cs3)
      match expStep with
      | none => none
      | some (eneg, expDs, cs4) =>
        let mant : Int := Int.ofNat (digitsToNat (intDs ++ fracDs))
        let mant := if neg then -mant else mant
        let expVal : Int :=
          if eneg then -(Int.ofNat (digitsToNat expDs)) else Int.ofNat (digitsToNat expDs)
        some ((mant, expVal - Int.ofNat fracDs.length), cs4)

mutual

/-- One JSON value, fuel-bounded recursive descent (a model of the grammar
`json.loads` accepts; `NaN`/`Infinity` extensions are not modelled). -/
def parseVal : Nat → List Char → Option (JVal × List Char)
  | 0, _ => none
  | fuel + 1, cs0 =>
    let cs := cs0.dropWhile isJsonWS
    match cs with
    | [] => none
    | c :: rest =>
      if c = 'n' then
        if rest.take 3 = ['u', 'l', 'l'] then some (JVal.jnull, rest.drop 3) else none
      else if c = 't' then
        if rest.take 3 = ['r', 'u', 'e'] then some (JVal.jbool true, rest.drop 3) else none
      else if c = 'f' then
        if rest.take 4 = ['a', 'l', 's', 'e'] then some (JVal.jbool false, rest.drop 4)
        else none
      else if c = '"' then
        match parseStringBody rest with
        | some (s, r) => some (JVal.jstr s, r)
        | none => none
      else if c = Py.lbrace then
        let body := rest.dropWhile isJsonWS
        match body with
        | d :: r2 =>
          if d = Py.rbrace then some (JVal.jobj [], r2)
          else
            match parseMembers fuel body with
            | some (es, r3) => some (JVal.jobj es, r3)
            | none => none
        | [] => none
      else if c = '[' then
        let body := rest.dropWhile isJsonWS
        match body with
        | d :: r2 =>
          if d = ']' then some (JVal.jarr [], r2)
          else
            match parseElems fuel body with
            | some (es, r3) => some (JVal.jarr es, r3)
            | none => none
        | [] => none
      else
        match parseNumber (c :: rest) with
        | some (me, r) => some (JVal.jnum me.1 me.2, r)
        | none => none

/-- One or more `"key": value` members followed by `,` members or the closing
brace. -/
def parseMembers : Nat → List Char → Option (List (String × JVal) × List Char)
  | 0, _ => none
  | fuel + 1, cs0 =>
    let cs := cs0.dropWhile isJsonWS
    match cs with
    | c :: rest =>
      if c = '"' then
        match parseStringBody rest with
        | some (k, r1) =>
          match r1.dropWhile isJsonWS with
          | d :: r2 =>
            if d = ':' then
              match parseVal fuel r2 with
              | some (v, r3) =>
                match r3.dropWhile isJsonWS with
                | e :: r4 =>
                  if e = ',' then
                    match parseMembers fuel r4 with
                    | some (es, r5) => some ((k, v) :: es, r5)
                    | none => none
                  else if e = Py.rbrace then some ([(k, v)], r4)
                  else none
                | [] => none
              | none => none
            else none
          | [] => none
        | none => none
      else none
    | [] => none

/-- One or more array elements followed by `,` elements or the closing
bracket. -/
def parseElems : Nat → List Char → Option (List JVal × List Char)
  | 0, _ => none
  | fuel + 1, cs0 =>
    match parseVal fuel cs0 with
    | some (v, r1) =>
      match r1.dropWhile isJsonWS with
      | e :: r2 =>
        if e = ',' then
          match parseElems fuel r2 with
          | some (es, r3) => some (v :: es, r3)
          | none => none
        else if e = ']' then some ([v], r2)
        else none
      | [] => none
    | none => none

end

/-- Embedding of `json.loads`: a full parse of the string (leading and trailing JSON
whitespace allowed). -/
def loads (s : String) : Option JVal :=
  match parseVal (s.length + 1) s.toList with
  | some (v, rest) => if (rest.dropWhile isJsonWS).isEmpty then some v else none
  | none => none

/-- Is there a "```" starting here? -/
def tripleAt (cs : List Char) : Bool :=
  match cs with
  | a :: b :: c :: _ => a = Py.backtick && b = Py.backtick && c = Py.backtick
  | _ => false

/-- Split at the first "```" occurrence: returns the characters before it and
those after it. -/
def splitAtTriple : List Char → Option (List Char × List Char)
  | [] => none
  | c :: rest =>
    if tripleAt (c :: rest) then some ([], rest.drop 2)
    else
      match splitAtTriple rest with
      | some (pre, post) => some (c :: pre, post)
      | none => none

/-- Does the list start with `json` (case-insensitively, per
`re.IGNORECASE`)? -/
def startsJson (cs : List Char) : Bool :=
  match cs with
  | a :: b :: c :: d :: _ =>
    a.toLower = 'j' && b.toLower = 'o' && c.toLower = 's' && d.toLower = 'n'
  | _ => false

/-- Attempt to complete the regex match from just after an opening "```":
optionally consume `json`, greedily consume `\s*`, then the lazy group runs
to the next "```".  `none` when no closing fence exists (the regex then
retries from a later start). -/
def fenceFrom (cs : List Char) : Option (List Char) :=
  let cs1 := if startsJson cs then cs.drop 4 else cs
  let cs2 := cs1.dropWhile Py.isPyWS
  match splitAtTriple cs2 with
  | some (pre, _) => some pre
  | none => none

/-- The fence regex of `parse_json`:
`re.search(r"```(?:json)?\s*([\s\S]*?)```", cleaned, re.IGNORECASE)` — the
leftmost opening "```" from which a complete match exists, returning capture
group 1. -/
def fenceSearch : List Char → Option (List Char)
  | [] => none
  | c :: rest =>
    if tripleAt (c :: rest) then
      match fenceFrom (rest.drop 2) with
      | some g => some g
      | none => fenceSearch rest
    else fenceSearch rest

/-- Python `cleaned.rfind(c)`. -/
def lastIdxOf (cs : List Char) (c : Char) : Option Nat :=
  (cs.reverse.indexOf? c).map (fun i => cs.length - 1 - i)

/-- The first-`{`-to-last-`}` candidate slice of a string, parsed with
`json.loads`; `none` when either brace is absent or the slice is not valid
JSON (step 3 of `parse_json`). -/
def braceSpanParse (cleaned : String) : Option JVal :=
  let cs := cleaned.toList
  match cs.indexOf? Py.lbrace, lastIdxOf cs Py.rbrace with
  | some s, some e => loads (String.mk ((cs.drop s).take (e + 1 - s)))
  | _, _ => none

/-- Embedding of `LLMClient.parse_json`: (1) strip; (2) if the markdown-fence
regex matches, replace the text by the stripped capture group; (3) parse the
first-`{`-to-last-`}` slice; (4) fall back to parsing the whole (possibly
fence-extracted) text; (5) return the empty dict.  (`content` that is empty
is falsy in Python and returns the empty dict at once.) -/
def parse_json (content : String) : JVal :=
  if content.isEmpty then JVal.jobj []
  else
    let cleaned := Py.strip content
    let cleaned := match fenceSearch cleaned.toList with
      | some g => Py.strip (String.mk g)
      | none => cleaned
    match braceSpanParse cleaned with
    | some v => v
    | none =>
      match loads cleaned with
      | some v => v
      | none => JVal.jobj []

/-- The parse order stated by the spec sentence for C8, written from its
words: *prefer the span from the first `{` to the last `}`; fall back to
markdown-fence extraction; on failure return the empty mapping.* -/
def claimOrderParse (content : String) : JVal :=
  if content.isEmpty then JVal.jobj []
  else
    let cleaned := Py.strip content
    match braceSpanParse cleaned with
    | some v => v
    | none =>
      match fenceSearch cleaned.toList with
      | some g =>
        match loads (Py.strip (String.mk g)) with
        | some v => v
        | none => JVal.jobj []
      | none => JVal.jobj []

/-- The ladder the source actually implements, written from the amended
wording: *markdown-fence extraction first when the fence regex matches; then
the first-`{`-to-last-`}` span of the (possibly fence-extracted) text; then a
direct parse; else the empty mapping.* -/
def ladderParse (content : String) : JVal :=
  if content.isEmpty then JVal.jobj []
  else
    let afterFence := match fenceSearch (Py.strip content).toList with
      | some g => Py.strip (String.mk g)
      | none => Py.strip content
    match braceSpanParse afterFence with
    | some v => v
    | none =>
      match loads afterFence with
      | some v => v
      | none => JVal.jobj []

/-- An LLM reply whose first-`{`-to-last-`}` span is itself valid JSON but
which contains a markdown fence inside a JSON string value. -/
def fenceInsideString : String := "\x7b\"a\": \"```json x ```\", \"b\": 2\x7d"

/-- Claim C8 (counterexample to the claim as stated). `parse_json` prefers the
markdown fence, *not* the first-`{`-to-last-`}` span: on
`fenceInsideString` the span (the whole reply) is valid JSON, so the claimed
order returns the two-key object, but the source extracts the fence content
`x` first, fails to parse it, and returns the empty dict. -/
theorem parse_json_order_cex :
    parse_json fenceInsideString = JVal.jobj [] ∧
    claimOrderParse fenceInsideString =
      JVal.jobj [("a", JVal.jstr "```json x ```"), ("b", JVal.jnum 2 0)] ∧
    parse_json fenceInsideString ≠ claimOrderParse fenceInsideString := by
  refine ⟨rfl, rfl, ?_⟩
  intro h
  have h2 := congrArg (fun v => match v with
    | JVal.jobj l => l.length
    | _ => 0) h
  simp only [] at h2
  exact absurd h2 (by decide)

/-- Claim C8 (amended). `parse_json` never raises and follows the ladder
*fence-extraction → first-`{`-to-last-`}` span → direct parse → empty
mapping* (fence preferred first, not the brace span); in particular the reply
consisting exactly of a ```json fence around the empty object parses to the
empty mapping. -/
theorem parse_json_ladder :
    (∀ s, parse_json s = ladderParse s) ∧
    parse_json "```json\n\x7b\x7d\n```" = JVal.jobj [] := by
  constructor
  · intro s
    unfold parse_json ladderParse
    rfl
  · rfl

end LlmClient

/-! ## Generated Scraper Runtime (`scrapewizard_runtime/base.py`) -/

namespace Runtime

/-- A record returned by `parse_item`: an ordered dict, each value either
Python `None` or (the `str(...)` of) some value. -/
abbrev Record := List (String × Option String)

/-- Outcome of one `parse_item` call inside `BaseScraper.collect`. -/
inductive ParseResult where
  | parsed (data : Record)
  | nonDict
  | noneVal
  | raised

/-- Python `str(v)` as used in the content hash (`None` prints as "None"). -/
def pyStr (v : Option String) : String :=
  match v with
  | none => "None"
  | some s => s

/-- The content string of a record:
`"|".join(str(v).strip().lower() for v in res.values())`. -/
def contentStr (r : Record) : String :=
  String.intercalate "|" (r.map (fun kv => (Py.strip (pyStr kv.2)).toLower))

/-- The acceptance filter of `collect`: `data` truthy (a non-empty dict) with
at least one non-`None` value. -/
def validRecord (d : Record) : Bool :=
  ¬ d.isEmpty && d.any (fun kv => kv.2.isSome)

/-- The `page_results` accumulation of `collect`: non-dict returns, `None`
returns, raising items and all-`None` records are dropped. -/
def pageRecords (items : List ParseResult) : List Record :=
  items.filterMap (fun it =>
    match it with
    | .parsed d => if validRecord d then some d else none
    | _ => none)

/-- The deduplication pass of `collect`: keep the first record per content
hash (`hashFn` models Python `hash` on the content string; `seen` is the
`seen_hashes` set). -/
def dedupAux (hashFn : String → Int) (seen : List Int) : List Record → List Record
  | [] => []
  | r :: rest =>
    let h := hashFn (contentStr r)
    if h ∈ seen then dedupAux hashFn seen rest
    else r :: dedupAux hashFn (h :: seen) rest

/-- Embedding of `BaseScraper.collect`: extend `self.results` with the page's
valid records, then rebuild `self.results` keeping the first record per
content hash. -/
def collect (hashFn : String → Int) (results : List Record)
    (items : List ParseResult) : List Record :=
  dedupAux hashFn [] (results ++ pageRecords items)

/-- The environment a run of the generated scraper observes: the items
`get_items`/`parse_item` produce on the n-th collection pass, and whether the
next-button query-and-click succeeds at page counter n (`query_selector`
finds a visible button and the click and idle wait do not raise). -/
structure ScraperEnv where
  pages : Nat → List ParseResult
  nextVisible : Nat → Bool

/-- Embedding of `BaseScraper._handle_pagination`: `first_page` mode returns
`False` immediately; otherwise stop at `max_pages`, then require a
`next_button_selector` in `pagination_meta` and a visible button.  Returns
(advanced?, new page counter); the counter starts at 1. -/
def handlePagination (cfg : Engine.PaginationConfig) (meta : Option String)
    (env : ScraperEnv) (pageCount : Nat) : Bool × Nat :=
  if cfg.mode = "first_page" then (false, pageCount)
  else if pageCount ≥ cfg.maxPages then (false, pageCount)
  else
    match meta with
    | none => (false, pageCount)
    | some _ =>
      if env.nextVisible pageCount then (true, pageCount + 1)
      else (false, pageCount)

/-- The main extraction loop of `BaseScraper.run`: `collect`, then continue
while `_handle_pagination()` returns true.  Returns the final `self.results`
and the number of collection passes performed (fuel bounds the modelled
iterations). -/
def runLoopAux (hashFn : String → Int) (cfg : Engine.PaginationConfig)
    (meta : Option String) (env : ScraperEnv) :
    Nat → Nat → List Record → List Record × Nat
  | 0, _, results => (results, 0)
  | fuel + 1, pageCount, results =>
    let results2 := collect hashFn results (env.pages pageCount)
    let p := handlePagination cfg meta env pageCount
    if p.1 then
      let r := runLoopAux hashFn cfg meta env fuel p.2 results2
      (r.1, r.2 + 1)
    else (results2, 1)

/-- Embedding of `BaseScraper.run`'s extraction phase; `save` then writes the
returned results to `output/data.json` (and per-format files).  The page
counter starts at 1; `max_pages + 1` fuel covers every reachable iteration
(`_handle_pagination` advances the counter towards `max_pages`). -/
def runScraper (hashFn : String → Int) (cfg : Engine.PaginationConfig)
    (meta : Option String) (env : ScraperEnv) : List Record × Nat :=
  runLoopAux hashFn cfg meta env (cfg.maxPages + 1) 1 []

/-- No two records share a content hash. -/
def distinctHashes (hashFn : String → Int) (rs : List Record) : Prop :=
  List.Pairwise (fun a b => hashFn (contentStr a) ≠ hashFn (contentStr b)) rs

theorem dedupAux_not_seen (hashFn : String → Int) :
    ∀ rs seen r, r ∈ dedupAux hashFn seen rs → hashFn (contentStr r) ∉ seen := by
  intro rs
  induction rs with
  | nil => intro seen r hr; exact absurd hr (by simp [dedupAux])
  | cons a rest ih =>
    intro seen r hr
    simp only [dedupAux] at hr
    by_cases hmem : hashFn (contentStr a) ∈ seen
    · rw [if_pos hmem] at hr
      exact ih seen r hr
    · rw [if_neg hmem] at hr
      rcases List.mem_cons.mp hr with heq | hr'
      · rw [heq]; exact hmem
      · have := ih (hashFn (contentStr a) :: seen) r hr'
        intro hc
        exact this (List.mem_cons_of_mem _ hc)

theorem dedupAux_distinct (hashFn : String → Int) :
    ∀ rs seen, distinctHashes hashFn (dedupAux hashFn seen rs) := by
  intro rs
  induction rs with
  | nil => intro seen; exact List.Pairwise.nil
  | cons a rest ih =>
    intro seen
    simp only [dedupAux]
    by_cases hmem : hashFn (contentStr a) ∈ seen
    · rw [if_pos hmem]; exact ih seen
    · rw [if_neg hmem]
      refine List.Pairwise.cons ?_ (ih _)
      intro r hr
      have := dedupAux_not_seen hashFn rest (hashFn (contentStr a) :: seen) r hr
      intro hc
      exact this (by rw [hc]; exact List.mem_cons_self _ _)

theorem collect_distinct (hashFn : String → Int) (results : List Record)
    (items : List ParseResult) :
    distinctHashes hashFn (collect hashFn results items) :=
  dedupAux_distinct hashFn _ []

theorem runLoopAux_distinct (hashFn : String → Int) (cfg : Engine.PaginationConfig)
    (meta : Option String) (env : ScraperEnv) :
    ∀ fuel pageCount results, distinctHashes hashFn results →
      distinctHashes hashFn (runLoopAux hashFn cfg meta env fuel pageCount results).1 := by
  intro fuel
  induction fuel with
  | zero => intro pc rs h; exact h
  | succ n ih =>
    intro pc rs h
    simp only [runLoopAux]
    by_cases hp : (handlePagination cfg meta env pc).1 = true
    · rw [if_pos hp]
      exact ih _ _ (collect_distinct hashFn rs (env.pages pc))
    · rw [if_neg hp]
      exact collect_distinct hashFn rs (env.pages pc)

/-- Claim C9. After each `collect`, the accumulated results contain no two
records with the same content hash (the `|`-joined, lowercased, trimmed
stringification of values, hashed); hence the dataset a `runScraper` run
hands to `save` contains no two records with the same content hash — for any
hash function, so in particular for Python's `hash`. -/
theorem runtime_dedup_invariant (hashFn : String → Int) :
    (∀ results items, distinctHashes hashFn (collect hashFn results items)) ∧
    (∀ cfg meta env, distinctHashes hashFn (runScraper hashFn cfg meta env).1) := by
  refine ⟨fun results items => collect_distinct hashFn results items, ?_⟩
  intro cfg meta env
  exact runLoopAux_distinct hashFn cfg meta env (cfg.maxPages + 1) 1 [] List.Pairwise.nil

theorem runScraper_first_page_mode (hashFn : String → Int)
    (cfg : Engine.PaginationConfig) (meta : Option String) (env : ScraperEnv)
    (hmode : cfg.mode = "first_page") :
    runScraper hashFn cfg meta env = (collect hashFn [] (env.pages 1), 1) := by
  show runLoopAux hashFn cfg meta env (cfg.maxPages + 1) 1 [] = _
  simp [runLoopAux, handlePagination, hmode]

/-- Claim C10. Choosing pagination `limit_5` writes
`pagination_config = {mode := "first_page", max_pages := 5}`; in `first_page`
mode the pagination driver returns false immediately regardless of
`max_pages`, so the run performs exactly one collection pass — and a
`limit_5` run produces exactly the same results as a `first_page` run over
the same pages. -/
theorem limit5_same_as_first_page (hashFn : String → Int) (meta : Option String)
    (env : ScraperEnv) :
    Engine.mkPaginationConfig "limit_5" =
      { mode := "first_page", maxPages := 5 } ∧
    (∀ pageCount, handlePagination (Engine.mkPaginationConfig "limit_5") meta env
      pageCount = (false, pageCount)) ∧
    (runScraper hashFn (Engine.mkPaginationConfig "limit_5") meta env).2 = 1 ∧
    (runScraper hashFn (Engine.mkPaginationConfig "limit_5") meta env).1 =
      collect hashFn [] (env.pages 1) ∧
    runScraper hashFn (Engine.mkPaginationConfig "limit_5") meta env =
      runScraper hashFn (Engine.mkPaginationConfig "first_page") meta env := by
  have h5 := runScraper_first_page_mode hashFn (Engine.mkPaginationConfig "limit_5")
    meta env rfl
  have h1 := runScraper_first_page_mode hashFn (Engine.mkPaginationConfig "first_page")
    meta env rfl
  refine ⟨rfl, ?_, ?_, ?_, ?_⟩
  · intro pageCount
    simp only [handlePagination]
    rw [if_pos (show (Engine.mkPaginationConfig "limit_5").mode = "first_page" from rfl)]
  · rw [h5]
  · rw [h5]
  · rw [h5, h1]

end Runtime
